import Mathlib

/-!
# Verification of the crocoite IRC bot front end

Shallow embedding of src/crocoite/irc.py: the job lifecycle state machine,
the concurrency-limited worker run loop, worker-output record routing,
privilege checks, command dispatch, channel mode tracking and byte
formatting, together with theorems checking the natural-language
specification of the repository against this embedding.
-/

/-- Job status (class Status, irc.py lines 78-84). -/
inductive Status
  | undefined
  | pending
  | running
  | aborted
  | finished
deriving DecidableEq

/-- Python IntEnum member name, as used by Job.formatStatus via self.status.name. -/
def statusName : Status → String
  | Status.undefined => "undefined"
  | Status.pending => "pending"
  | Status.running => "running"
  | Status.aborted => "aborted"
  | Status.finished => "finished"

/-- Minimal JSON scalar values appearing in decoded worker records. -/
inductive JVal
  | num (n : Int)
  | str (s : String)
deriving DecidableEq

/-- A decoded JSON object (a Python dict) as a key-value list; Python dicts
have distinct keys, and lookups below take the first match. -/
abbrev JsonObj := List (String × JVal)

/-- Python dict lookup d.get(k), returning None when the key is absent. -/
def dictGet {α : Type} : List (String × α) → String → Option α
  | [], _ => none
  | (k2, v) :: rest, k => if k2 = k then some v else dictGet rest k

/-- Python dict assignment d[k] = v: replace the value in place, or add the key. -/
def dictSet {α : Type} : List (String × α) → String → α → List (String × α)
  | [], k, v => [(k, v)]
  | (k2, v2) :: rest, k, v =>
      if k2 = k then (k, v) :: rest else (k2, v2) :: dictSet rest k v

/-- d.get(k, 0) for the numeric counters read by Job.formatStatus
(irc.py lines 110-115); only numeric payload values are modelled, since a
non-numeric bytesRcv would make the Python raise inside prettyBytes. -/
def jgetNum (d : JsonObj) (k : String) : Int :=
  match dictGet d k with
  | some (JVal.num n) => n
  | _ => 0

/-- Message-kind identifier whose records are routed to j.stats (irc.py line 400). -/
def statsMsgId : String := "24d92d16-770e-4088-b769-4020e127a7ff"

/-- Message-kind identifier whose records are routed to j.rstats (irc.py line 402). -/
def rstatsMsgId : String := "5b8498e4-868d-413c-a67e-004516b8452c"

/-- Archival job (class Job, irc.py lines 86-101). The datetime field
self.finished is abstracted to a boolean (timestamp has been set); the
subprocess handle self.process is abstracted to processSpawned
(self.process is not None) and processAlive (self.process.returncode is None). -/
structure Job where
  id : String
  url : String
  nick : String
  status : Status
  stats : JsonObj
  rstats : JsonObj
  processSpawned : Bool
  processAlive : Bool
  finished : Bool
deriving DecidableEq

/-- Job.__init__ (irc.py lines 91-101): a fresh job is pending, with empty
counter dicts and no process; the uuid4 id is passed in explicitly. -/
def Job.init (url nick id : String) : Job :=
  { id := id, url := url, nick := nick, status := Status.pending, stats := [],
    rstats := [], processSpawned := false, processAlive := false, finished := false }

/-- Floor of a rational number via floor division of numerator by denominator. -/
def ratFloor (q : ℚ) : Int := Int.fdiv q.num (q.den : Int)

/-- Round to the nearest integer with ties to even. This is the rounding
performed by Python float formatting on values that the float holds exactly,
which covers every value prettyBytes computes from an integer byte count
below 2 pow 53, since those are integers divided by powers of two. -/
def roundHalfEven (q : ℚ) : Int :=
  let f := ratFloor q
  if q - f < 1 / 2 then f
  else if 1 / 2 < q - f then f + 1
  else if f % 2 = 0 then f else f + 1

/-- Python format spec .1f applied to a nonnegative value: one digit after
the decimal point, rounding ties to even. -/
def formatOneDecimal (v : ℚ) : String :=
  let t := roundHalfEven (v * 10)
  toString (t / 10) ++ "." ++ toString (t % 10)

/-- The while loop of prettyBytes (irc.py lines 51-54): divide by 1024 while
the value is at least 1024 and more than one unit remains; return the value
and the reached unit. -/
def prettyBytesAux : ℚ → List String → ℚ × String
  | b, [] => (b, "")
  | b, [p] => (b, p)
  | b, p :: p2 :: rest =>
      if 1024 ≤ b then prettyBytesAux (b / 1024) (p2 :: rest) else (b, p)

/-- prettyBytes (irc.py lines 47-55). -/
def prettyBytes (b : ℚ) : String :=
  let vp := prettyBytesAux b ["B", "KiB", "MiB", "GiB", "TiB"]
  formatOneDecimal vp.1 ++ " " ++ vp.2

/-- Job.formatStatus (irc.py lines 103-115). -/
def formatStatus (j : Job) : String :=
  j.url ++ " (" ++ j.id ++ ") " ++ statusName j.status ++ ". " ++
  toString (jgetNum j.rstats "have") ++ " pages finished, " ++
  toString (jgetNum j.rstats "pending") ++ " pending; " ++
  toString (jgetNum j.stats "crashed") ++ " crashed, " ++
  toString (jgetNum j.stats "requests") ++ " requests, " ++
  toString (jgetNum j.stats "failed") ++ " failed, " ++
  prettyBytes ((jgetNum j.stats "bytesRcv" : Int) : ℚ) ++ " received."

/-- Allowed edges of the job status state machine described by the spec:
pending to running, running to finished, running to aborted, pending to
aborted. -/
def allowedEdge : Status → Status → Bool
  | Status.pending, Status.running => true
  | Status.running, Status.finished => true
  | Status.running, Status.aborted => true
  | Status.pending, Status.aborted => true
  | _, _ => false

/-- Status update performed per output line by the run loop (irc.py lines
394-396): if the job is still pending, mark it running. -/
def markRunning (s : Status) : Status :=
  if s = Status.pending then Status.running else s

/-- Status update performed after the run loop (irc.py lines 406-408): if the
job is still running, mark it finished. -/
def markFinished (s : Status) : Status :=
  if s = Status.running then Status.finished else s

/-- Status update performed by handleAbort (irc.py lines 427-431): only a
pending or running job is moved to aborted. -/
def abortStatus (s : Status) : Status :=
  if s = Status.pending ∨ s = Status.running then Status.aborted else s

/-- The three operations of the program that assign a job status after
creation: the per-line pending-to-running mark, the post-loop
running-to-finished mark, and the abort command. -/
inductive StatusOp
  | markRun
  | markFin
  | abortOp
deriving DecidableEq

/-- Effect of one status-assigning operation on the status field. -/
def stepStatus : StatusOp → Status → Status
  | StatusOp.markRun, s => markRunning s
  | StatusOp.markFin, s => markFinished s
  | StatusOp.abortOp, s => abortStatus s

/-- Effect of a sequence of status-assigning operations. -/
def runStatusOps : List StatusOp → Status → Status
  | [], s => s
  | op :: l, s => runStatusOps l (stepStatus op s)

/-- One worker stdout line as the run loop classifies it: a line that
json.loads rejects, a line holding valid JSON that is not an object (so that
data.get raises AttributeError), or a decoded JSON object. -/
inductive WorkerLine
  | invalid
  | nonObject
  | object (payload : JsonObj)
deriving DecidableEq

/-- Python exceptions that can escape the line-processing body (irc.py lines
398-403), which contains no try/except. -/
inductive ProcErr
  | jsonDecodeError
  | attributeError
deriving DecidableEq

/-- Processing of one worker stdout line (irc.py lines 393-403): first the
pending job is marked running, then the line is decoded; a raised exception
carries the job state at the raise point, since the Python mutates the job
in place before raising. -/
def processLine (j : Job) (l : WorkerLine) : Except (ProcErr × Job) Job :=
  let j2 := { j with status := markRunning j.status }
  match l with
  | WorkerLine.invalid => Except.error (ProcErr.jsonDecodeError, j2)
  | WorkerLine.nonObject => Except.error (ProcErr.attributeError, j2)
  | WorkerLine.object payload =>
      let msgid := dictGet payload "uuid"
      if msgid = some (JVal.str statsMsgId) then
        Except.ok { j2 with stats := payload }
      else if msgid = some (JVal.str rstatsMsgId) then
        Except.ok { j2 with rstats := payload }
      else Except.ok j2

/-- The read loop of handleArchive (irc.py lines 388-403) over the sequence
of non-empty lines the worker writes before closing stdout; an uncaught
exception stops the loop. -/
def processLines (j : Job) : List WorkerLine → Except (ProcErr × Job) Job
  | [] => Except.ok j
  | l :: rest =>
      match processLine j l with
      | Except.ok j2 => processLines j2 rest
      | Except.error e => Except.error e

/-- Job status after a line-processing step, whether or not it raised. -/
def statusAfter : Except (ProcErr × Job) Job → Status
  | Except.ok j => j.status
  | Except.error (_, j) => j.status

/-- Whether a decoded object carries one of the two recognized
message-kind identifiers. -/
def recognizedMsgId (payload : JsonObj) : Bool :=
  decide (dictGet payload "uuid" = some (JVal.str statsMsgId)) ||
  decide (dictGet payload "uuid" = some (JVal.str rstatsMsgId))

/-- A stats record: a decoded object whose uuid field is the stats id. -/
def statsLine (p : JsonObj) : WorkerLine :=
  WorkerLine.object (("uuid", JVal.str statsMsgId) :: p)

/-- A recursion-stats record: a decoded object whose uuid field is the
recursion-stats id. -/
def rstatsLine (p : JsonObj) : WorkerLine :=
  WorkerLine.object (("uuid", JVal.str rstatsMsgId) :: p)

/-- Body of the with-block of handleArchive (irc.py lines 381-404): if the
job is still pending (not aborted while waiting for a slot), spawn the
worker, process its output lines and await its exit; otherwise do nothing. -/
def runLoop (j : Job) (lines : List WorkerLine) : Except (ProcErr × Job) Job :=
  if j.status = Status.pending then
    match processLines { j with processSpawned := true, processAlive := true } lines with
    | Except.ok j2 => Except.ok { j2 with processAlive := false }
    | Except.error e => Except.error e
  else Except.ok j

/-- The part of handleArchive from slot acquisition onwards (irc.py lines
381-409): run the with-block, and if no exception escaped, mark a still
running job finished and set the finished timestamp; an escaped exception
skips that epilogue. -/
def handleArchiveRun (j : Job) (lines : List WorkerLine) : Except (ProcErr × Job) Job :=
  match runLoop j lines with
  | Except.error e => Except.error e
  | Except.ok j2 => Except.ok { j2 with status := markFinished j2.status, finished := true }

/-- Replies sent by the Chromebot command handlers, by identity. -/
inductive BotReply
  | mustHaveVoice
  | jobUnknown (id : String)
  | queuedAck (url id : String)
  | statusLine (s : String)
  | notRunningReply
deriving DecidableEq

/-- Effect of handleAbort on one job (irc.py lines 424-434): a job that is
neither pending nor running gets a refusal reply; otherwise the status is
set to aborted and, if a live process handle exists, it is terminated (the
returned boolean records whether terminate was called). -/
def jobAbort (j : Job) : Job × List BotReply × Bool :=
  if ¬(j.status = Status.pending ∨ j.status = Status.running) then
    (j, [BotReply.notRunningReply], false)
  else
    ({ j with status := Status.aborted }, [], j.processSpawned && j.processAlive)

/-- Channel privilege flags (class NickMode, irc.py lines 117-123). -/
inductive NickMode
  | operator
  | voiceFlag
deriving DecidableEq

/-- NickMode.fromMode (irc.py lines 121-123); an unknown mode letter raises
KeyError in the Python, modelled as none. -/
def NickMode.fromMode (mode : Char) : Option NickMode :=
  if mode = 'v' then some NickMode.voiceFlag
  else if mode = 'o' then some NickMode.operator
  else none

/-- The privilege test of the voice decorator (irc.py line 300): the calling
user must hold a non-empty intersection with the operator and voice flags. -/
def voiceAllowed (modes : Finset NickMode) : Bool :=
  decide (modes ∩ ({NickMode.operator, NickMode.voiceFlag} : Finset NickMode) ≠ ∅)

/-- The jobs registry self.jobs, a dict from job id to Job. -/
abbrev JobsMap := List (String × Job)

/-- The synchronous prefix of handleArchive under the voice decorator
(irc.py lines 358-379): refuse without voice or operator; otherwise create
the Job (uuid passed in as newId), register it and acknowledge. The
remainder of the handler, from slot acquisition on, is handleArchiveRun. -/
def handleArchiveCmd (newId : String) (modes : Finset NickMode) (userName url : String)
    (jobs : JobsMap) : JobsMap × List BotReply :=
  if voiceAllowed modes then
    let j := Job.init url userName newId
    (dictSet jobs j.id j, [BotReply.queuedAck url j.id])
  else
    (jobs, [BotReply.mustHaveVoice])

/-- handleStatus under the jobExists decorator (irc.py lines 307-320 and
415-420): no privilege check; an unknown id gets an unknown-job reply, an
existing job gets its formatted status. -/
def handleStatusCmd (id : String) (jobs : JobsMap) : JobsMap × List BotReply :=
  match dictGet jobs id with
  | none => (jobs, [BotReply.jobUnknown id])
  | some j => (jobs, [BotReply.statusLine (formatStatus j)])

/-- handleAbort under the voice and jobExists decorators, in that order
(irc.py lines 422-434): the privilege check runs first, then the job lookup,
then jobAbort on the found job. -/
def handleAbortCmd (modes : Finset NickMode) (id : String) (jobs : JobsMap) :
    JobsMap × List BotReply :=
  if voiceAllowed modes then
    match dictGet jobs id with
    | none => (jobs, [BotReply.jobUnknown id])
    | some j =>
        let r := jobAbort j
        (dictSet jobs id r.1, r.2.1)
  else
    (jobs, [BotReply.mustHaveVoice])


/-- The three sub-commands configured by getParser (irc.py lines 335-356),
holding their remaining tokens; validation of the sub-command arguments
themselves is not needed by any claim and is not modelled. -/
inductive SubCmd
  | archiveA (rest : List String)
  | statusS (rest : List String)
  | revokeR (rest : List String)
deriving DecidableEq

/-- The argparse Namespace returned by parse_args: its func attribute is set
by set_defaults when one of the sub-commands was selected, and absent when
the token list was empty. -/
structure ArgsNamespace where
  func : Option SubCmd
deriving DecidableEq

/-- Truthiness of an argparse Namespace in Python: Namespace defines neither
a bool nor a len special method, so every instance is truthy. -/
def namespaceTruthy (_ : ArgsNamespace) : Bool := true

/-- NonExitingArgumentParser.parse_args over the grammar built by getParser:
an empty token list selects no sub-command and yields a Namespace without
func; an unrecognized first token makes argparse call error, which this
parser class turns into a raised (and caught) exception (irc.py lines
70-73), modelled as the error case. -/
def parse_args : List String → Except String ArgsNamespace
  | [] => Except.ok { func := none }
  | t :: rest =>
      if t = "a" then Except.ok { func := some (SubCmd.archiveA rest) }
      else if t = "s" then Except.ok { func := some (SubCmd.statusS rest) }
      else if t = "r" then Except.ok { func := some (SubCmd.revokeR rest) }
      else Except.error ("invalid choice: " ++ t)

/-- Observable outcome of ArgparseBot.onMessage for one PRIVMSG. -/
inductive MsgOutcome
  | ignored
  | parseErrorTold (msg : String)
  | couldNotUnderstandTold (command : List String)
  | dispatched (cmd : SubCmd)
  | attributeError
deriving DecidableEq

/-- Python str.split with an explicit single-space separator: split at every
space, keeping empty pieces. -/
def splitSpaceAux : List Char → List Char → List (List Char)
  | [], acc => [acc.reverse]
  | c :: rest, acc =>
      if c = ' ' then acc.reverse :: splitSpaceAux rest []
      else splitSpaceAux rest (c :: acc)

/-- message.split(" ") as the Python performs it. -/
def pySplitSpace (s : String) : List String :=
  (splitSpaceAux s.data []).map (fun cs => String.mk cs)

/-- Whether the first list is an initial segment of the second. -/
def listPrefixOf : List Char → List Char → Bool
  | [], _ => true
  | _ :: _, [] => false
  | a :: as, b :: bs => a = b && listPrefixOf as bs

/-- message.startswith(nick) as the Python performs it. -/
def pyStartsWith (s pre : String) : Bool := listPrefixOf pre.data s.data

/-- ArgparseBot.onMessage (irc.py lines 268-285): an addressed line in a
joined channel is split on single spaces, the first token dropped, and the
rest parsed; a parse exception is answered with the error text, a falsy
parse result would be answered with the could-not-understand reply, and
otherwise args.func is awaited, which raises AttributeError when the
Namespace has no func attribute. -/
def onMessage (channels : List String) (botNick : String) (target message : String) :
    MsgOutcome :=
  if target ∈ channels ∧ pyStartsWith message botNick then
    let command := (pySplitSpace message).drop 1
    match parse_args command with
    | Except.error e => MsgOutcome.parseErrorTold e
    | Except.ok args =>
        if namespaceTruthy args = false then MsgOutcome.couldNotUnderstandTold command
        else
          match args.func with
          | some f => MsgOutcome.dispatched f
          | none => MsgOutcome.attributeError
  else MsgOutcome.ignored

/-- An IRC user record as the Python object behaves (class User, irc.py
lines 125-150). The constructor default modes=set() is evaluated once at
function definition time, so every User built without an explicit modes
argument aliases one shared set object; usesDefault records whether this
record aliases that shared set, and ownModes is its private set otherwise
(User.fromName always passes an explicit fresh set). -/
structure PyUser where
  name : String
  ownModes : Finset NickMode
  usesDefault : Bool
deriving DecidableEq

/-- Membership state of one joined channel together with the process-wide
shared default modes set of the User constructor. -/
structure ChanState where
  users : List (String × PyUser)
  defaultModes : Finset NickMode
deriving DecidableEq

/-- Fresh channel state at bot start: no users seen, and the shared default
set still empty. -/
def initChan : ChanState := { users := [], defaultModes := ∅ }

/-- The set of modes a user record observes: the shared default set when the
record aliases it, its own set otherwise. -/
def effModes (st : ChanState) (u : PyUser) : Finset NickMode :=
  if u.usesDefault then st.defaultModes else u.ownModes

/-- Modes of a nick as seen through the channel membership map. -/
def channelUserModes (st : ChanState) (nick : String) : Option (Finset NickMode) :=
  (dictGet st.users nick).map (effModes st)

/-- ArgparseBot.onJoin (irc.py lines 258-262): the joining nick is mapped to
User(nick), whose modes alias the shared constructor default set. -/
def onJoin (st : ChanState) (nick : String) : ChanState :=
  { st with users :=
      dictSet st.users nick ({ name := nick, ownModes := ∅, usesDefault := true }) }

/-- ArgparseBot.parseMode (irc.py lines 220-230): fold a mode string such as
+a-b into a list of action-letter pairs, the action defaulting to plus. -/
def parseMode (mode : List Char) : List (Char × Char) :=
  (mode.foldl
    (fun (acc : Char × List (Char × Char)) c =>
      if c = '+' ∨ c = '-' then (c, acc.2)
      else (acc.1, acc.2 ++ [(acc.1, c)]))
    ('+', [])).2

/-- One iteration of the loop of ArgparseBot.onMode (irc.py lines 236-246):
an unknown mode letter raises KeyError and is ignored; otherwise the target
record is users.get(nick, User(nick)) and the flag is added to or removed
from the set that record aliases. A record built by the get default, and any
record added by onJoin, aliases the shared constructor default set, so the
mutation lands there; removal of an absent flag raises KeyError, which the
handler also swallows, leaving the set unchanged. -/
def onModeStep (st : ChanState) (p : (Char × Char) × String) : ChanState :=
  match NickMode.fromMode p.1.2 with
  | none => st
  | some m =>
      let u := (dictGet st.users p.2).getD
        { name := p.2, ownModes := ∅, usesDefault := true }
      if p.1.1 = '+' then
        if u.usesDefault then { st with defaultModes := insert m st.defaultModes }
        else { st with users := dictSet st.users p.2 { u with ownModes := insert m u.ownModes } }
      else if p.1.1 = '-' then
        if u.usesDefault then { st with defaultModes := st.defaultModes.erase m }
        else { st with users := dictSet st.users p.2 { u with ownModes := u.ownModes.erase m } }
      else st

/-- ArgparseBot.onMode over the whole event (irc.py lines 232-246): the
parsed mode string is zipped positionally with the parameter nicks; the
channel is assumed to be in the configured set, the handler returning with
no effect otherwise. -/
def onMode (st : ChanState) (modes : List Char) (params : List String) : ChanState :=
  (List.zip (parseMode modes) params).foldl onModeStep st

/-- Abstract counting state of the job scheduler: how many jobs sit in each
phase of handleArchive, plus the free slots of the processLimit semaphore
(irc.py line 333). Phases follow the code: waiting before the with-block
(queued); slot held before create_subprocess_exec (acquiredP); process
spawned with no output line yet, job still pending (livePending); at least
one line processed, job running (liveRunning); job aborted while its process
is still live (liveAborted); process exited, slot still held (exitedP); slot
released normally (releasedP); slot released by an exception escaping the
with-block while the process is still live (orphanRunning or orphanAborted,
by job status). -/
structure SchedState where
  avail : Nat
  queued : Nat
  acquiredP : Nat
  livePending : Nat
  liveRunning : Nat
  liveAborted : Nat
  exitedP : Nat
  releasedP : Nat
  orphanRunning : Nat
  orphanAborted : Nat
deriving DecidableEq

/-- Scheduler events, each an atomic step of some jobs task between two
suspension points of handleArchive, or an abort command. -/
inductive SchedEv
  | acquire
  | spawn
  | abortSkip
  | firstLine
  | abortPendingLive
  | abortRunning
  | streamErrPending
  | streamErrRunning
  | streamErrAborted
  | exitRunning
  | exitPendingLive
  | exitAborted
  | release
deriving DecidableEq

/-- Effect of one scheduler event; an event whose precondition does not hold
is not enabled and leaves the state unchanged. acquire models the semaphore
await (blocked unless a slot is free); spawn the subprocess start for a
still-pending job; abortSkip the aborted-while-waiting path that skips the
spawn and leaves the with-block; firstLine the pending-to-running mark on
the first output line; streamErr the uncaught decode exception, which exits
the with-block releasing the slot while the process is still alive; exit
the end of stream plus process wait; release the normal with-block exit. -/
def schedStep (s : SchedState) (e : SchedEv) : SchedState :=
  match e with
  | SchedEv.acquire =>
      if 0 < s.queued ∧ 0 < s.avail then
        { s with queued := s.queued - 1, acquiredP := s.acquiredP + 1, avail := s.avail - 1 }
      else s
  | SchedEv.spawn =>
      if 0 < s.acquiredP then
        { s with acquiredP := s.acquiredP - 1, livePending := s.livePending + 1 }
      else s
  | SchedEv.abortSkip =>
      if 0 < s.acquiredP then
        { s with acquiredP := s.acquiredP - 1, releasedP := s.releasedP + 1,
                 avail := s.avail + 1 }
      else s
  | SchedEv.firstLine =>
      if 0 < s.livePending then
        { s with livePending := s.livePending - 1, liveRunning := s.liveRunning + 1 }
      else s
  | SchedEv.abortPendingLive =>
      if 0 < s.livePending then
        { s with livePending := s.livePending - 1, liveAborted := s.liveAborted + 1 }
      else s
  | SchedEv.abortRunning =>
      if 0 < s.liveRunning then
        { s with liveRunning := s.liveRunning - 1, liveAborted := s.liveAborted + 1 }
      else s
  | SchedEv.streamErrPending =>
      if 0 < s.livePending then
        { s with livePending := s.livePending - 1, orphanRunning := s.orphanRunning + 1,
                 avail := s.avail + 1 }
      else s
  | SchedEv.streamErrRunning =>
      if 0 < s.liveRunning then
        { s with liveRunning := s.liveRunning - 1, orphanRunning := s.orphanRunning + 1,
                 avail := s.avail + 1 }
      else s
  | SchedEv.streamErrAborted =>
      if 0 < s.liveAborted then
        { s with liveAborted := s.liveAborted - 1, orphanAborted := s.orphanAborted + 1,
                 avail := s.avail + 1 }
      else s
  | SchedEv.exitRunning =>
      if 0 < s.liveRunning then
        { s with liveRunning := s.liveRunning - 1, exitedP := s.exitedP + 1 }
      else s
  | SchedEv.exitPendingLive =>
      if 0 < s.livePending then
        { s with livePending := s.livePending - 1, exitedP := s.exitedP + 1 }
      else s
  | SchedEv.exitAborted =>
      if 0 < s.liveAborted then
        { s with liveAborted := s.liveAborted - 1, exitedP := s.exitedP + 1 }
      else s
  | SchedEv.release =>
      if 0 < s.exitedP then
        { s with exitedP := s.exitedP - 1, releasedP := s.releasedP + 1,
                 avail := s.avail + 1 }
      else s

/-- Run a sequence of scheduler events, one interleaving of the concurrent
archive tasks. -/
def schedRun (s : SchedState) : List SchedEv → SchedState
  | [] => s
  | e :: evs => schedRun (schedStep s e) evs

/-- Initial scheduler state: a semaphore of size limit, k submitted archive
commands all waiting, nothing else. -/
def initSched (limit k : Nat) : SchedState :=
  { avail := limit, queued := k, acquiredP := 0, livePending := 0, liveRunning := 0,
    liveAborted := 0, exitedP := 0, releasedP := 0, orphanRunning := 0, orphanAborted := 0 }

/-- Jobs whose status is running while their worker process is alive. -/
def runningLive (s : SchedState) : Nat := s.liveRunning + s.orphanRunning

/-- Events modelling the uncaught stream-decode exception. -/
def isStreamErr : SchedEv → Bool
  | SchedEv.streamErrPending => true
  | SchedEv.streamErrRunning => true
  | SchedEv.streamErrAborted => true
  | _ => false

/-! ## Helper lemmas shared between the claim theorems -/

/-- The status after processing any one worker line is the pending-to-running
mark applied to the previous status, whether or not the line raised. -/
lemma processLine_status (j : Job) (l : WorkerLine) :
    statusAfter (processLine j l) = markRunning j.status := by
  cases l with
  | invalid => rfl
  | nonObject => rfl
  | object payload =>
      simp only [processLine]
      split
      · rfl
      · split <;> rfl

/-- A finished or aborted status is a fixed point of every status operation. -/
lemma stepStatus_terminal (op : StatusOp) :
    stepStatus op Status.finished = Status.finished ∧
    stepStatus op Status.aborted = Status.aborted := by
  cases op <;> exact ⟨rfl, rfl⟩

/-- A finished or aborted status is preserved by every sequence of status
operations. -/
lemma runStatusOps_terminal (l : List StatusOp) :
    runStatusOps l Status.finished = Status.finished ∧
    runStatusOps l Status.aborted = Status.aborted := by
  induction l with
  | nil => exact ⟨rfl, rfl⟩
  | cons op l ih =>
      refine ⟨?_, ?_⟩
      · simp only [runStatusOps, (stepStatus_terminal op).1, ih.1]
      · simp only [runStatusOps, (stepStatus_terminal op).2, ih.2]

/-- Processing a line whose decoded object carries no recognized kind returns
the job unchanged apart from the pending-to-running mark. -/
lemma processLine_unrecognized (j : Job) (payload : JsonObj)
    (h : recognizedMsgId payload = false) :
    processLine j (WorkerLine.object payload) =
      Except.ok { j with status := markRunning j.status } := by
  simp only [recognizedMsgId, Bool.or_eq_false_iff, decide_eq_false_iff_not] at h
  simp [processLine, h.1, h.2]

/-- C1: across the status-assigning operations of the program (the per-line
pending-to-running mark of the run loop, the post-loop running-to-finished
mark, and the abort command) every status change follows an edge of the
state machine pending-running-finished/aborted, a finished or aborted status
is never changed by any sequence of these operations, and the job-level
line-processing and abort functions change status exactly by these
operations. -/
theorem status_machine_monotonic :
    (∀ op : StatusOp, ∀ s : Status,
        stepStatus op s = s ∨ allowedEdge s (stepStatus op s) = true) ∧
    (∀ l : List StatusOp,
        runStatusOps l Status.finished = Status.finished ∧
        runStatusOps l Status.aborted = Status.aborted) ∧
    (∀ (j : Job) (l : WorkerLine), statusAfter (processLine j l) = markRunning j.status) ∧
    (∀ j : Job, (jobAbort j).1.status = abortStatus j.status) := by
  refine ⟨?_, runStatusOps_terminal, processLine_status, ?_⟩
  · intro op s
    cases op <;> cases s <;> first | exact Or.inl rfl | exact Or.inr rfl
  · intro j
    rcases j with ⟨id, url, nick, status, stats, rstats, ps, pa, fin⟩
    cases status <;> rfl

/-- C3: a job aborted while still pending, before the run loop acquired a
slot and spawned a worker, never spawns a worker and leaves the run loop
with terminal status aborted. -/
theorem abort_pending_never_spawns (j : Job) (lines : List WorkerLine)
    (hp : j.status = Status.pending) (hs : j.processSpawned = false) :
    ∃ jf : Job, handleArchiveRun ((jobAbort j).1) lines = Except.ok jf ∧
      jf.status = Status.aborted ∧ jf.processSpawned = false := by
  have h1 : (jobAbort j).1 = { j with status := Status.aborted } := by
    simp [jobAbort, hp]
  refine ⟨{ j with status := Status.aborted, finished := true }, ?_, rfl, hs⟩
  rw [h1]
  simp [handleArchiveRun, runLoop, markFinished]

/-- C3 witness at a concrete pending job with no process and an empty output
stream. -/
theorem abort_pending_never_spawns_witness :
    ∃ jf : Job,
      handleArchiveRun ((jobAbort (Job.init "http://example.org/" "alice" "j-w3")).1) [] =
        Except.ok jf ∧
      jf.status = Status.aborted ∧ jf.processSpawned = false :=
  abort_pending_never_spawns (Job.init "http://example.org/" "alice" "j-w3") [] rfl rfl

/-- C4 (amended): a worker line that decodes to a JSON object of an
unrecognized message kind raises no error, leaves stats and rstats unchanged
(only the pending-to-running mark is applied) and the loop continues with
the following lines; but a line that is not a valid JSON object raises an
uncaught exception carrying the job state. -/
theorem unrecognized_ignored_malformed_raises (j : Job) (payload : JsonObj)
    (rest : List WorkerLine) (h : recognizedMsgId payload = false) :
    processLine j (WorkerLine.object payload) =
      Except.ok { j with status := markRunning j.status } ∧
    processLines j (WorkerLine.object payload :: rest) =
      processLines { j with status := markRunning j.status } rest ∧
    processLine j WorkerLine.invalid =
      Except.error (ProcErr.jsonDecodeError, { j with status := markRunning j.status }) := by
  refine ⟨processLine_unrecognized j payload h, ?_, rfl⟩
  simp [processLines, processLine_unrecognized j payload h]

/-- C4 witness at a concrete job and a concrete unrecognized object line. -/
theorem unrecognized_ignored_malformed_raises_witness :
    processLine (Job.init "http://example.org/" "bob" "j-w4")
        (WorkerLine.object [("uuid", JVal.str "other")]) =
      Except.ok { Job.init "http://example.org/" "bob" "j-w4" with
                  status := markRunning (Job.init "http://example.org/" "bob" "j-w4").status } ∧
    processLines (Job.init "http://example.org/" "bob" "j-w4")
        [WorkerLine.object [("uuid", JVal.str "other")]] =
      processLines { Job.init "http://example.org/" "bob" "j-w4" with
                     status := markRunning (Job.init "http://example.org/" "bob" "j-w4").status } [] ∧
    processLine (Job.init "http://example.org/" "bob" "j-w4") WorkerLine.invalid =
      Except.error (ProcErr.jsonDecodeError,
        { Job.init "http://example.org/" "bob" "j-w4" with
          status := markRunning (Job.init "http://example.org/" "bob" "j-w4").status }) :=
  unrecognized_ignored_malformed_raises (Job.init "http://example.org/" "bob" "j-w4")
    [("uuid", JVal.str "other")] [] (by decide)

/-- C4 counterexample: a line that is not valid JSON makes the read loop
raise an uncaught json decode error instead of being ignored, and a
following recognized stats line is never processed. -/
theorem malformed_line_stops_loop :
    processLine (Job.init "http://example.org/" "alice" "j-c4") WorkerLine.invalid =
      Except.error (ProcErr.jsonDecodeError,
        { Job.init "http://example.org/" "alice" "j-c4" with status := Status.running }) ∧
    processLines (Job.init "http://example.org/" "alice" "j-c4")
        [WorkerLine.invalid, statsLine [("requests", JVal.num 1)]] =
      Except.error (ProcErr.jsonDecodeError,
        { Job.init "http://example.org/" "alice" "j-c4" with status := Status.running }) :=
  ⟨rfl, rfl⟩

/-- C5 (amended): a pending job is marked running upon processing the first
worker output line, whatever the kind of that line, including malformed or
unrecognized lines. -/
theorem first_line_marks_running (j : Job) (l : WorkerLine)
    (hp : j.status = Status.pending) :
    statusAfter (processLine j l) = Status.running := by
  rw [processLine_status, hp]
  rfl

/-- C5 witness at a concrete pending job and an unrecognized object line. -/
theorem first_line_marks_running_witness :
    statusAfter (processLine (Job.init "http://example.org/" "carol" "j-w5")
      (WorkerLine.object [])) = Status.running :=
  first_line_marks_running (Job.init "http://example.org/" "carol" "j-w5")
    (WorkerLine.object []) rfl

/-- C5 counterexample: an output line of unrecognized kind (and even a
malformed line) already triggers the pending-to-running transition, though
it is not one of the two recognized record kinds. -/
theorem unrecognized_first_line_marks_running :
    recognizedMsgId [] = false ∧
    processLine (Job.init "http://example.org/" "carol" "j-c5") (WorkerLine.object []) =
      Except.ok { Job.init "http://example.org/" "carol" "j-c5" with status := Status.running } ∧
    statusAfter (processLine (Job.init "http://example.org/" "carol" "j-c5")
      WorkerLine.invalid) = Status.running :=
  ⟨rfl, rfl, rfl⟩

/-- C6: two successive recognized records of the same kind leave the
corresponding field equal to exactly the whole second payload, with nothing
merged from the first, and leave the other field untouched. -/
theorem stats_rstats_full_replacement (j : Job) (p1 p2 q1 q2 : JsonObj) :
    (processLines j [statsLine p1, statsLine p2]).map Job.stats =
      Except.ok (("uuid", JVal.str statsMsgId) :: p2) ∧
    (processLines j [statsLine p1, statsLine p2]).map Job.rstats = Except.ok j.rstats ∧
    (processLines j [rstatsLine q1, rstatsLine q2]).map Job.rstats =
      Except.ok (("uuid", JVal.str rstatsMsgId) :: q2) ∧
    (processLines j [rstatsLine q1, rstatsLine q2]).map Job.stats = Except.ok j.stats := by
  have hs : ∀ (j2 : Job) (p : JsonObj),
      processLine j2 (statsLine p) =
        Except.ok { j2 with status := markRunning j2.status,
                            stats := ("uuid", JVal.str statsMsgId) :: p } := by
    intro j2 p
    simp [processLine, statsLine, dictGet]
  have hr : ∀ (j2 : Job) (p : JsonObj),
      processLine j2 (rstatsLine p) =
        Except.ok { j2 with status := markRunning j2.status,
                            rstats := ("uuid", JVal.str rstatsMsgId) :: p } := by
    intro j2 p
    simp [processLine, rstatsLine, dictGet, statsMsgId, rstatsMsgId]
  refine ⟨?_, ?_, ?_, ?_⟩ <;> simp [processLines, hs, hr, Except.map]

/-- C7: a sender whose current user record carries neither operator nor
voice receives the refusal reply on archive and abort, with the wrapped
handler never executed and the jobs registry unchanged, while the status
command succeeds for an existing job without any privilege. -/
theorem unprivileged_refused_status_open (jobs : JobsMap) (m : Finset NickMode)
    (userName url newId id : String) (j : Job)
    (hm : m ∩ ({NickMode.operator, NickMode.voiceFlag} : Finset NickMode) = ∅)
    (hj : dictGet jobs id = some j) :
    handleArchiveCmd newId m userName url jobs = (jobs, [BotReply.mustHaveVoice]) ∧
    handleAbortCmd m id jobs = (jobs, [BotReply.mustHaveVoice]) ∧
    handleStatusCmd id jobs = (jobs, [BotReply.statusLine (formatStatus j)]) := by
  have hv : voiceAllowed m = false := by simp [voiceAllowed, hm]
  exact ⟨by simp [handleArchiveCmd, hv], by simp [handleAbortCmd, hv],
    by simp [handleStatusCmd, hj]⟩

/-- C7 witness: a concrete registry holding one job, and a sender with an
empty mode set. -/
theorem unprivileged_refused_status_open_witness :
    handleArchiveCmd "j-new" ∅ "mallory" "http://example.org/"
        [("j-1", Job.init "http://example.org/" "alice" "j-1")] =
      ([("j-1", Job.init "http://example.org/" "alice" "j-1")], [BotReply.mustHaveVoice]) ∧
    handleAbortCmd ∅ "j-1" [("j-1", Job.init "http://example.org/" "alice" "j-1")] =
      ([("j-1", Job.init "http://example.org/" "alice" "j-1")], [BotReply.mustHaveVoice]) ∧
    handleStatusCmd "j-1" [("j-1", Job.init "http://example.org/" "alice" "j-1")] =
      ([("j-1", Job.init "http://example.org/" "alice" "j-1")],
       [BotReply.statusLine (formatStatus (Job.init "http://example.org/" "alice" "j-1"))]) :=
  unprivileged_refused_status_open
    [("j-1", Job.init "http://example.org/" "alice" "j-1")] ∅ "mallory"
    "http://example.org/" "j-new" "j-1" (Job.init "http://example.org/" "alice" "j-1")
    (by decide) (by decide)

/-- C8: evaluating onMessage at the failing input, an addressed line whose
remainder is empty. The parse succeeds with a Namespace lacking func, the
could-not-understand branch is dead because an argparse Namespace is always
truthy, and awaiting args.func raises AttributeError with no reply sent; an
unrecognized sub-command token is answered with the specific parse-error
reply, not the generic one. -/
theorem empty_command_attribute_error :
    onMessage ["#archivebot"] "chromebot" "#archivebot" "chromebot" =
      MsgOutcome.attributeError ∧
    (∀ ns : ArgsNamespace, namespaceTruthy ns = true) ∧
    onMessage ["#archivebot"] "chromebot" "#archivebot" "chromebot x" =
      MsgOutcome.parseErrorTold ("invalid choice: " ++ "x") := by
  refine ⟨by decide, fun ns => rfl, by decide⟩

/-- C10: evaluating onMode at a channel where alice entered via onJoin and a
voice grant names the unseen nick bob. No record is inserted for bob and the
key set of the membership map is unchanged, but the grant mutates the shared
constructor-default modes set that alice aliases, so the modes observed for
alice change from empty to voice rather than the grant being discarded. -/
theorem mode_for_unseen_nick_leaks_default_modes :
    dictGet (onJoin initChan "alice").users "bob" = none ∧
    channelUserModes (onJoin initChan "alice") "alice" = some ∅ ∧
    channelUserModes (onMode (onJoin initChan "alice") ['+', 'v'] ["bob"]) "alice" =
      some ({NickMode.voiceFlag} : Finset NickMode) ∧
    (onMode (onJoin initChan "alice") ['+', 'v'] ["bob"]).users =
      (onJoin initChan "alice").users := by
  refine ⟨by decide, by decide, by decide, by decide⟩

/-- Scheduler invariant on error-free executions: no orphaned live process
exists, and free slots plus slot-holding jobs always equal the semaphore
size. -/
def schedInv (limit : Nat) (s : SchedState) : Prop :=
  s.orphanRunning = 0 ∧ s.orphanAborted = 0 ∧
  s.avail + (s.acquiredP + s.livePending + s.liveRunning + s.liveAborted + s.exitedP) = limit

/-- One scheduler event that is not a stream-decode error preserves the
invariant. -/
lemma schedStep_inv {limit : Nat} {s : SchedState} {e : SchedEv}
    (h : schedInv limit s) (he : isStreamErr e = false) :
    schedInv limit (schedStep s e) := by
  obtain ⟨h1, h2, h3⟩ := h
  cases e <;>
    first
      | (simp only [schedStep, schedInv]
         split
         · dsimp only
           exact ⟨h1, h2, by omega⟩
         · exact ⟨h1, h2, h3⟩)
      | exact Bool.noConfusion he

/-- The invariant holds after any error-free event sequence from a state
satisfying it. -/
lemma schedRun_inv (limit : Nat) (evs : List SchedEv) (s : SchedState)
    (hs : schedInv limit s) (h : ∀ e ∈ evs, isStreamErr e = false) :
    schedInv limit (schedRun s evs) := by
  induction evs generalizing s with
  | nil => exact hs
  | cons e evs ih =>
      exact ih (schedStep s e)
        (schedStep_inv hs (h e (by simp)))
        (fun e2 he2 => h e2 (by simp [he2]))

/-- C2 (amended): for every semaphore size, every number of submitted
archive commands and every interleaving in which no worker output line
raises a decode error, the number of jobs that are running with a live
worker process never exceeds the semaphore size; the bound can be exceeded
when a decode error releases the slot while the process is still alive. -/
theorem processLimit_bounds_running (limit k : Nat) (evs : List SchedEv)
    (h : ∀ e ∈ evs, isStreamErr e = false) :
    runningLive (schedRun (initSched limit k) evs) ≤ limit := by
  have hinv := schedRun_inv limit evs (initSched limit k)
    (by simp [schedInv, initSched]) h
  obtain ⟨h1, h2, h3⟩ := hinv
  simp only [runningLive]
  omega

/-- C2 witness: one slot, one archive command, the normal acquire, spawn and
first-line interleaving. -/
theorem processLimit_bounds_running_witness :
    runningLive (schedRun (initSched 1 1)
      [SchedEv.acquire, SchedEv.spawn, SchedEv.firstLine]) ≤ 1 :=
  processLimit_bounds_running 1 1
    [SchedEv.acquire, SchedEv.spawn, SchedEv.firstLine] (by decide)

/-- C2 counterexample: with semaphore size one and two archive commands, a
malformed first output line of the first worker releases the slot while that
process is still alive and its job is marked running, after which the second
job acquires the slot, spawns and also becomes running with a live process:
two jobs are running with live workers under a configured bound of one. -/
theorem processLimit_exceeded_on_decode_error :
    1 < runningLive (schedRun (initSched 1 2)
      [SchedEv.acquire, SchedEv.spawn, SchedEv.streamErrPending,
       SchedEv.acquire, SchedEv.spawn, SchedEv.firstLine]) := by decide

/-- Correctness of the division loop of prettyBytes: the returned value is
the input divided by 1024 to the k-th power and the returned unit is the
k-th one, where k is the first index at which the running value is below
1024, capped at the last available unit. -/
lemma prettyBytesAux_spec (ps : List String) (b : ℚ) (h : ps ≠ []) :
    ∃ k : Nat, k < ps.length ∧
      prettyBytesAux b ps = (b / 1024 ^ k, ps.getD k "") ∧
      (b / 1024 ^ k < 1024 ∨ k = ps.length - 1) ∧
      (∀ i : Nat, i < k → 1024 ≤ b / 1024 ^ i) := by
  induction ps generalizing b with
  | nil => exact absurd rfl h
  | cons p rest ih =>
      cases rest with
      | nil =>
          exact ⟨0, by simp, by simp [prettyBytesAux], Or.inr rfl,
            fun i hi => absurd hi (Nat.not_lt_zero i)⟩
      | cons p2 rest2 =>
          have hdiv : ∀ m : Nat, b / 1024 / 1024 ^ m = b / 1024 ^ (m + 1) := by
            intro m
            rw [div_div, pow_succ']
          by_cases hb : 1024 ≤ b
          · obtain ⟨k, hk, heq, hlt, hge⟩ := ih (b / 1024) (by simp)
            refine ⟨k + 1, by simp only [List.length_cons] at hk ⊢; omega, ?_, ?_, ?_⟩
            · rw [show prettyBytesAux b (p :: p2 :: rest2) =
                    prettyBytesAux (b / 1024) (p2 :: rest2) from by
                  simp [prettyBytesAux, hb]]
              rw [heq, hdiv]
              rfl
            · rcases hlt with hlt | hlast
              · exact Or.inl (by rw [← hdiv]; exact hlt)
              · exact Or.inr (by simp only [List.length_cons] at hlast ⊢; omega)
            · intro i hi
              cases i with
              | zero => simpa using hb
              | succ i2 =>
                  rw [← hdiv]
                  exact hge i2 (by omega)
          · refine ⟨0, by simp, by simp [prettyBytesAux, hb], Or.inl ?_,
              fun i hi => absurd hi (Nat.not_lt_zero i)⟩
            simpa using not_le.mp hb

/-- C9: prettyBytes repeatedly divides the byte count by 1024 while the
running value is at least 1024 and a further unit among B, KiB, MiB, GiB,
TiB is available, then renders the reached value to one decimal place
followed by the reached unit; in particular 0 renders as 0.0 B, 1536 as
1.5 KiB and 1048576 as 1.0 MiB. -/
theorem prettyBytes_division_loop_and_examples :
    (∀ b : ℚ, ∃ k : Nat, k ≤ 4 ∧
        prettyBytes b =
          formatOneDecimal (b / 1024 ^ k) ++ " " ++
            (["B", "KiB", "MiB", "GiB", "TiB"].getD k "") ∧
        (b / 1024 ^ k < 1024 ∨ k = 4) ∧
        (∀ i : Nat, i < k → 1024 ≤ b / 1024 ^ i)) ∧
    prettyBytes 0 = "0.0 B" ∧
    prettyBytes 1536 = "1.5 KiB" ∧
    prettyBytes (1024 * 1024) = "1.0 MiB" := by
  refine ⟨?_, ?_, ?_, ?_⟩
  · intro b
    obtain ⟨k, hk, heq, hlt, hge⟩ :=
      prettyBytesAux_spec ["B", "KiB", "MiB", "GiB", "TiB"] b (by simp)
    refine ⟨k, by simp at hk; omega, by simp [prettyBytes, heq], ?_, hge⟩
    rcases hlt with hlt | hlast
    · exact Or.inl hlt
    · exact Or.inr (by simp at hlast; omega)
  · norm_num [prettyBytes, prettyBytesAux, formatOneDecimal, roundHalfEven, ratFloor]
    rfl
  · norm_num [prettyBytes, prettyBytesAux, formatOneDecimal, roundHalfEven, ratFloor]
    rfl
  · norm_num [prettyBytes, prettyBytesAux, formatOneDecimal, roundHalfEven, ratFloor]
    rfl
